import Mathlib

/-!
Verification development for the KanOpt backend: a shallow embedding of the
event bus (internal/messaging), the event processor (processor.go), the task
position logic of the REST layer (tasks.go) and the allocator agent
(the AllocatorAgent service), together with theorems about the documented
behaviour of each component.

Modelling conventions: Go machine integers are Int, float64 values are Rat,
times are integer days (or abstract integer ticks) at the precision of the
model, dynamic map[string]interface{} payloads are ordered association lists
of JSON values, and database tables are in-memory lists of rows.  The struct
declarations of the internal models package are not part of the tree; their
fields are modelled from the spec (section 3) and from the way the present
code reads and writes them.
-/

namespace KanOpt

/-- JSON value tree: the wire format of event payloads and the model of Go
dynamic map values. JSON numbers are rationals, standing in for float64. -/
inductive Json where
  | null : Json
  | bool (b : Bool) : Json
  | num (q : Rat) : Json
  | str (s : String) : Json
  | arr (elems : List Json) : Json
  | obj (fields : List (String × Json)) : Json

/-- Event envelope of internal/messaging: struct Event with JSON tags id,
type, boardId, userId, data, timestamp. The RFC3339 timestamp is an integer
tick at the precision of the model. -/
structure Event where
  id : String
  type : String
  boardId : String
  userId : String
  data : List (String × Json)
  timestamp : Int

/-- Serialization of the Event struct (json.Marshal in PublishEvent): fields
appear in declaration order under their JSON tags. -/
def encodeEvent (e : Event) : Json :=
  Json.obj [("id", Json.str e.id), ("type", Json.str e.type),
    ("boardId", Json.str e.boardId), ("userId", Json.str e.userId),
    ("data", Json.obj e.data), ("timestamp", Json.num (e.timestamp : Rat))]

/-- Decoding a string field of the envelope: a missing key keeps the zero
value, a value of the wrong type is an unmarshal error. -/
def getStr (v : Option Json) : Option String :=
  match v with
  | none => some ""
  | some (Json.str s) => some s
  | some _ => none

/-- Decoding the data object of the envelope: a missing key or JSON null
leaves the nil map, a non-object is an unmarshal error. -/
def getObj (v : Option Json) : Option (List (String × Json)) :=
  match v with
  | none => some []
  | some Json.null => some []
  | some (Json.obj fs) => some fs
  | some _ => none

/-- Decoding the timestamp field: a missing key keeps the zero time, a
non-integral or non-numeric value is an unmarshal error in the model. -/
def getTime (v : Option Json) : Option Int :=
  match v with
  | none => some 0
  | some (Json.num q) => if q.den = 1 then some q.num else none
  | some _ => none

/-- Deserialization of an Event (json.Unmarshal in ConsumeEvents): a
non-object body or a field of the wrong type fails; missing fields keep
their zero values, matching Go struct decoding. -/
def decodeEvent (j : Json) : Option Event :=
  match j with
  | Json.obj fs => do
    let id ← getStr (fs.lookup "id")
    let ty ← getStr (fs.lookup "type")
    let bid ← getStr (fs.lookup "boardId")
    let uid ← getStr (fs.lookup "userId")
    let dat ← getObj (fs.lookup "data")
    let ts ← getTime (fs.lookup "timestamp")
    some { id := id, type := ty, boardId := bid, userId := uid, data := dat, timestamp := ts }
  | _ => none

/-- Body published to the topic exchange by PublishEvent: the serialized
envelope (persistent delivery; transport failures are handled at call
sites and do not alter the body). -/
def publishEvent (e : Event) : Json := encodeEvent e

/-- A delivery as the consumer sees it: none models a body that is not valid
JSON text at all, some j a body parsing to the value j. -/
def decodeDelivery (d : Option Json) : Option Event := d.bind decodeEvent

/-- Acknowledgement outcome for one delivery: Ack, or Nack carrying the
requeue flag, as issued by the ConsumeEvents loop. -/
inductive Ack where
  | ack : Ack
  | nack (requeue : Bool) : Ack
deriving DecidableEq

/-- One iteration of the ConsumeEvents loop body: an unmarshal failure nacks
without requeue, a handler error nacks with requeue, success acks. -/
def consumeStep (handler : Event → Except String Unit) (d : Option Json) : Ack :=
  match decodeDelivery d with
  | none => Ack.nack false
  | some event =>
    match handler event with
    | Except.error _ => Ack.nack true
    | Except.ok _ => Ack.ack

/-- Queue evolution under the consume loop and broker semantics: the head
delivery is processed; ack and nack-without-requeue drop it, nack-with-
requeue returns it to the queue. -/
def busStep (handler : Event → Except String Unit) (q : List (Option Json)) : List (Option Json) :=
  match q with
  | [] => []
  | d :: rest =>
    match consumeStep handler d with
    | Ack.nack true => rest ++ [d]
    | _ => rest

/-- Modelled from the spec (section 3; the models package declarations are
not in the tree): a Task row with the fields that the processor and the task
API read and write. Times are integer days, completedAt is nullable. -/
structure Task where
  id : String
  boardId : String
  columnId : String
  position : Int
  storyPoints : Int
  createdAt : Int
  completedAt : Option Int
deriving DecidableEq

/-- Modelled from the spec (section 3): a Column row, with its tasks as
preloaded by the bottleneck query. -/
structure Column where
  id : String
  boardId : String
  name : String
  position : Int
  wipLimit : Int
  tasks : List Task
deriving DecidableEq

/-- Modelled from the spec (section 3): the per (board, sprint-week) velocity
metric row written by the processor. -/
structure VelocityMetric where
  boardId : String
  sprintWeek : Int
  velocity : Rat
  completed : Nat
  totalPoints : Int
  cycleTime : Rat
  throughput : Nat
deriving DecidableEq

/-- Modelled from the spec (section 3): an appended risk prediction row. -/
structure RiskPrediction where
  boardId : String
  type : String
  level : String
  score : Rat
  description : String
  data : List (String × Json)

/-- Day of week of a model day, with day 0 fixed as a Sunday, so the value
coincides with Go time.Weekday (Sunday = 0). -/
def weekday (d : Int) : Int := d % 7

/-- Modelled from the spec: the ISO week number (time.Time.ISOWeek) that keys
the stored metric row, abstracted to the 7-day block index of the model
day. No claim depends on its value. -/
def weekNumber (d : Int) : Int := d / 7

/-- Velocity update of the processor (updateVelocityMetrics): select the
tasks of the board completed at or after weekStart, where weekStart is now
shifted back by now.Weekday() days via AddDate(0, 0, -int(now.Weekday()));
velocity is total story points over (count + 1), and the metric row carries
the completion count as both completed and throughput. -/
def updateVelocityMetrics (boardId : String) (tasks : List Task) (now : Int) : VelocityMetric :=
  let weekStart := now - weekday now
  let completedTasks := tasks.filter (fun t =>
    t.boardId == boardId &&
      match t.completedAt with
      | some c => decide (weekStart ≤ c)
      | none => false)
  let totalPoints : Int := completedTasks.foldl (fun acc t => acc + t.storyPoints) 0
  let velocity : Rat := (totalPoints : Rat) / ((completedTasks.length : Rat) + 1)
  { boardId := boardId, sprintWeek := weekNumber now, velocity := velocity,
    completed := completedTasks.length, totalPoints := totalPoints,
    cycleTime := 0, throughput := completedTasks.length }

/-- Stated from the claim wording, for comparison only: velocity over the
current ISO calendar week, the whole-day window running from the Monday of
the week of now. -/
def isoWeekVelocity (boardId : String) (tasks : List Task) (now : Int) : Rat :=
  let weekStart := now - ((weekday now + 6) % 7)
  let completedTasks := tasks.filter (fun t =>
    t.boardId == boardId &&
      match t.completedAt with
      | some c => decide (weekStart ≤ c) && decide (c < weekStart + 7)
      | none => false)
  ((completedTasks.map (fun t => t.storyPoints)).sum : Rat) / ((completedTasks.length : Rat) + 1)

/-- Stated from the amended claim wording: velocity over the window of tasks
completed at or after now minus Weekday(now) days, the Sunday-based week of
the source, with the smoothing denominator (count + 1). -/
def sundayWeekVelocity (boardId : String) (tasks : List Task) (now : Int) : Rat :=
  let weekStart := now - weekday now
  let completedTasks := tasks.filter (fun t =>
    t.boardId == boardId &&
      match t.completedAt with
      | some c => decide (weekStart ≤ c)
      | none => false)
  ((completedTasks.map (fun t => t.storyPoints)).sum : Rat) / ((completedTasks.length : Rat) + 1)

/-- Database state touched by the processor handlers. -/
structure DBState where
  tasks : List Task
  columns : List Column
  metrics : List VelocityMetric
  risks : List RiskPrediction

/-- Cycle time of a task in days, CompletedAt minus CreatedAt; tasks without
a completion time contribute nothing to the sum. -/
def cycleDays (t : Task) : Rat :=
  match t.completedAt with
  | some c => ((c - t.createdAt : Int) : Rat)
  | none => 0

/-- Cycle-time update of the processor (updateCycleTimeMetrics): board-wide
mean cycle time over all completed tasks, upserted into the (board, week)
metric row; a board with no completed tasks returns without writing. -/
def updateCycleTimeMetrics (boardId : String) (st : DBState) (now : Int) : DBState :=
  let completed := st.tasks.filter (fun t => t.boardId == boardId && t.completedAt.isSome)
  if completed.length = 0 then st
  else
    let totalCycleTime := completed.foldl (fun acc t => acc + cycleDays t) 0
    let avgCycleTime := totalCycleTime / (completed.length : Rat)
    let week := weekNumber now
    let fresh : VelocityMetric :=
      { boardId := boardId, sprintWeek := week, velocity := 0,
        completed := 0, totalPoints := 0, cycleTime := avgCycleTime, throughput := 0 }
    let metrics :=
      if st.metrics.any (fun m => m.boardId == boardId && m.sprintWeek == week) then
        st.metrics.map (fun m =>
          if m.boardId == boardId && m.sprintWeek == week then
            { m with cycleTime := avgCycleTime }
          else m)
      else
        st.metrics ++ [fresh]
    { st with metrics := metrics }

/-- Risk prediction appended by analyzeBottlenecks for an overfull column:
type bottleneck, level high, score 0.8, and a data map recording the column,
its task count, its WIP limit and the overflow. -/
def bottleneckRisk (boardId : String) (column : Column) : RiskPrediction :=
  { boardId := boardId, type := "bottleneck", level := "high", score := 4/5,
    description := "Column " ++ column.name ++ " exceeds WIP limit: " ++
      toString column.tasks.length ++ "/" ++ toString column.wipLimit ++ " tasks",
    data := [("columnId", Json.str column.id), ("columnName", Json.str column.name),
      ("taskCount", Json.num (column.tasks.length : Rat)),
      ("wipLimit", Json.num (column.wipLimit : Rat)),
      ("overflowBy", Json.num (((column.tasks.length : Int) - column.wipLimit : Int) : Rat))] }

/-- Bottleneck analysis of the processor (analyzeBottlenecks): for each
column of the board whose WIP limit is positive and exceeded by its task
count, create the bottleneck risk prediction. -/
def analyzeBottlenecks (boardId : String) (columns : List Column) : List RiskPrediction :=
  ((columns.filter (fun c => c.boardId == boardId)).filter
    (fun c => decide (0 < c.wipLimit) && decide (c.wipLimit < (c.tasks.length : Int)))).map
    (bottleneckRisk boardId)

/-- Task-moved handler of the processor (handleTaskMoved): update cycle-time
metrics, then run bottleneck analysis and append its predictions to the risk
table. -/
def handleTaskMoved (boardId : String) (st : DBState) (now : Int) : DBState :=
  let st1 := updateCycleTimeMetrics boardId st now
  { st1 with risks := st1.risks ++ analyzeBottlenecks boardId st1.columns }

/-- Default columns created for a new board (initializeDefaultColumns); row
ids are database-generated and derived from the board id in the model. -/
def defaultColumns (boardId : String) : List Column :=
  [{ id := boardId ++ "-backlog", boardId := boardId, name := "Backlog",
     position := 0, wipLimit := 0, tasks := [] },
   { id := boardId ++ "-todo", boardId := boardId, name := "To Do",
     position := 1, wipLimit := 5, tasks := [] },
   { id := boardId ++ "-inprogress", boardId := boardId, name := "In Progress",
     position := 2, wipLimit := 3, tasks := [] },
   { id := boardId ++ "-review", boardId := boardId, name := "Review",
     position := 3, wipLimit := 2, tasks := [] },
   { id := boardId ++ "-done", boardId := boardId, name := "Done",
     position := 4, wipLimit := 0, tasks := [] }]

/-- Board-created handler of the processor: create the default columns only
when the board has no columns yet. -/
def initializeDefaultColumns (boardId : String) (columns : List Column) : List Column :=
  if 0 < (columns.filter (fun c => c.boardId == boardId)).length then columns
  else columns ++ defaultColumns boardId

/-- Positions of the tasks of one column, in table order. -/
def colPositions (db : List Task) (c : String) : List Int :=
  (db.filter (fun t => t.columnId == c)).map (fun t => t.position)

/-- Highest position in a column, with COALESCE(MAX(position), -1) on an
empty column (CreateTask). -/
def maxPosition (db : List Task) (c : String) : Int :=
  (colPositions db c).foldl max (-1)

/-- Task insertion (CreateTask): the new task is appended at one past the
maximum position of its column. -/
def createTask (db : List Task) (t : Task) : List Task :=
  db ++ [{ t with position := maxPosition db t.columnId + 1 }]

/-- Task deletion (DeleteTask): the row is deleted; no neighbour positions
are shifted. -/
def deleteTask (db : List Task) (tid : String) : List Task :=
  db.filter (fun t => !(t.id == tid))

/-- First bulk update of MoveTask, run only when the columns differ: tasks of
the old column past the old position move down one. -/
def shiftOldColumn (oldCol : String) (oldPos : Int) (t : Task) : Task :=
  if t.columnId == oldCol && decide (oldPos < t.position) then
    { t with position := t.position - 1 }
  else t

/-- Second bulk update of MoveTask: tasks of the new column at or past the
target position move up one. -/
def shiftNewColumn (newCol : String) (newPos : Int) (t : Task) : Task :=
  if t.columnId == newCol && decide (newPos ≤ t.position) then
    { t with position := t.position + 1 }
  else t

/-- Final save of MoveTask: the moved task takes the new column and target
position. -/
def placeTask (tid : String) (newCol : String) (newPos : Int) (t : Task) : Task :=
  if t.id == tid then { t with columnId := newCol, position := newPos } else t

/-- Task move (MoveTask): look the task up, shift the old column down past
the old position when the columns differ, shift the new column up from the
target position, then place the task; the three updates commit together in
one database transaction, modelled as a single function. A missing task id
is a 404 with no writes. -/
def moveTask (db : List Task) (tid : String) (newCol : String) (newPos : Int) : List Task :=
  match db.find? (fun t => t.id == tid) with
  | none => db
  | some tk =>
    let db1 := if tk.columnId ≠ newCol then db.map (shiftOldColumn tk.columnId tk.position) else db
    let db2 := db1.map (shiftNewColumn newCol newPos)
    db2.map (placeTask tid newCol newPos)

/-- Integer range 0, 1, ..., n-1 as a list of Int. -/
def rangeInt (n : Nat) : List Int := (List.range n).map (fun k : Nat => (k : Int))

/-- Dense-ordering invariant of spec section 3: the positions within a column
are exactly 0, 1, ..., count-1 in some order. -/
def contiguous (db : List Task) (c : String) : Prop :=
  List.Perm (colPositions db c) (rangeInt (colPositions db c).length)

instance (db : List Task) (c : String) : Decidable (contiguous db c) :=
  inferInstanceAs (Decidable (List.Perm _ _))

/-- Agent-internal pending action (PendingAction of the allocator agent). -/
structure PendingAction where
  id : String
  type : String
  boardId : String
  priority : Int
  data : List (String × Json)
  createdAt : Int
  retryCount : Int

/-- Risk alert consumed by the agent from the risk queue. -/
structure RiskAlert where
  id : String
  type : String
  boardId : String
  level : String
  score : Rat
  data : List (String × Json)
  timestamp : Int

/-- Workload snapshot entry returned by analyzeWorkload for one user. -/
structure WorkloadAnalysis where
  userId : String
  name : String
  activeTasks : Int
  totalStoryPoints : Int
  avgCycleTime : Rat
  capacity : Rat
  isOverloaded : Bool
deriving DecidableEq

/-- Outcome of an alert handler: Go code that hits a failed type assertion
panics instead of returning; otherwise the handler yields the pending action
it queues, or none. -/
inductive HandlerResult where
  | panicked : HandlerResult
  | ok (action : Option PendingAction) : HandlerResult

/-- Go type assertion v.(string) on a dynamic map entry: a missing key reads
as untyped nil and the assertion panics, as does a value of another type. -/
def assertString (v : Option Json) : Option String :=
  match v with
  | some (Json.str s) => some s
  | _ => none

/-- Go type assertion v.(float64) on a dynamic map entry. -/
def assertFloat (v : Option Json) : Option Rat :=
  match v with
  | some (Json.num q) => some q
  | _ => none

/-- Go conversion int(f) of a float64: truncation toward zero. -/
def goInt (q : Rat) : Int := if 0 ≤ q then Int.floor q else Int.ceil q

/-- Bottleneck alert handler of the agent (handleBottleneckAlert): asserts
data.columnId as string and data.wipLimit as float64, both unchecked, then
queues an adjust_wip_limits action of priority 2 whose new limit is two
above the reported one. -/
def handleBottleneckAlert (alert : RiskAlert) (newId : String) (now : Int) : HandlerResult :=
  match assertString (alert.data.lookup "columnId") with
  | none => HandlerResult.panicked
  | some columnId =>
    match assertFloat (alert.data.lookup "wipLimit") with
    | none => HandlerResult.panicked
    | some wip =>
      HandlerResult.ok (some
        { id := newId, type := "adjust_wip_limits", boardId := alert.boardId, priority := 2,
          createdAt := now, retryCount := 0,
          data := [("columnId", Json.str columnId),
            ("reason", Json.str "bottleneck_detected"),
            ("alertId", Json.str alert.id),
            ("newLimit", Json.num ((goInt wip + 2 : Int) : Rat))] })

/-- One iteration of the target-search loop of handleOverloadAlert. Go 1.21
range loops (go.mod pins go 1.21) bind a single loop variable for the whole
loop, so targetUser, once assigned the address of that variable, always
dereferences to the element of the current iteration: the state tracks
whether the pointer was assigned and the current contents of the loop
variable cell. The guard user.ActiveTasks < targetUser.ActiveTasks reads the
same cell on both sides once the pointer is assigned. -/
def overloadLoopStep (userID : String) (st : Bool × Option WorkloadAnalysis)
    (user : WorkloadAnalysis) : Bool × Option WorkloadAnalysis :=
  let cell := user
  let eligible := user.userId != userID && !user.isOverloaded
  let doSet := eligible && (!st.1 || decide (user.activeTasks < cell.activeTasks))
  (st.1 || doSet, some cell)

/-- Overload alert handler of the agent (handleOverloadAlert): asserts
data.userId, walks the workload snapshot looking for a reassignment target,
and queues a priority-1 redistribute_tasks action toward the user the target
pointer holds after the loop; with the pointer never assigned it logs and
queues nothing. The workload snapshot itself comes from the external
analytics endpoint and is a parameter here. -/
def handleOverloadAlert (alert : RiskAlert) (analysis : List WorkloadAnalysis)
    (newId : String) (now : Int) : HandlerResult :=
  match assertString (alert.data.lookup "userId") with
  | none => HandlerResult.panicked
  | some userID =>
    let st := analysis.foldl (overloadLoopStep userID) (false, none)
    match (if st.1 then st.2 else none) with
    | none => HandlerResult.ok none
    | some target =>
      HandlerResult.ok (some
        { id := newId, type := "redistribute_tasks", boardId := alert.boardId, priority := 1,
          createdAt := now, retryCount := 0,
          data := [("fromUserId", Json.str userID),
            ("toUserId", Json.str target.userId),
            ("taskCount", Json.num 2),
            ("reason", Json.str "workload_balancing"),
            ("alertId", Json.str alert.id)] })

/-- Deadline alert handler of the agent (handleDeadlineAlert): asserts
data.taskId, then queues a reassign_overdue action of priority 3. -/
def handleDeadlineAlert (alert : RiskAlert) (newId : String) (now : Int) : HandlerResult :=
  match assertString (alert.data.lookup "taskId") with
  | none => HandlerResult.panicked
  | some taskId =>
    HandlerResult.ok (some
      { id := newId, type := "reassign_overdue", boardId := alert.boardId, priority := 3,
        createdAt := now, retryCount := 0,
        data := [("taskId", Json.str taskId),
          ("reason", Json.str "deadline_risk"),
          ("alertId", Json.str alert.id)] })

/-- WIP violation alert handler of the agent (handleWIPViolationAlert):
asserts data.columnId, then queues an enforce_wip_limits action of
priority 2. -/
def handleWIPViolationAlert (alert : RiskAlert) (newId : String) (now : Int) : HandlerResult :=
  match assertString (alert.data.lookup "columnId") with
  | none => HandlerResult.panicked
  | some columnId =>
    HandlerResult.ok (some
      { id := newId, type := "enforce_wip_limits", boardId := alert.boardId, priority := 2,
        createdAt := now, retryCount := 0,
        data := [("columnId", Json.str columnId),
          ("reason", Json.str "wip_violation"),
          ("alertId", Json.str alert.id)] })

/-- Alert router of the agent (handleRiskAlert): dispatch on the alert type;
unknown types are logged and dropped. -/
def handleRiskAlert (alert : RiskAlert) (analysis : List WorkloadAnalysis)
    (newId : String) (now : Int) : HandlerResult :=
  if alert.type == "bottleneck" then handleBottleneckAlert alert newId now
  else if alert.type == "overload" then handleOverloadAlert alert analysis newId now
  else if alert.type == "deadline_risk" then handleDeadlineAlert alert newId now
  else if alert.type == "wip_violation" then handleWIPViolationAlert alert newId now
  else HandlerResult.ok none

/-- Assignment pendingActions[id] = action on the in-memory map, modelled as
an id-keyed list: overwrite the entry with that id, or append. -/
def mapSet (m : List PendingAction) (a : PendingAction) : List PendingAction :=
  if m.any (fun x => x.id == a.id) then m.map (fun x => if x.id == a.id then a else x)
  else m ++ [a]

/-- queueAction of the agent: the handler-produced action enters the map. -/
def queueAction (m : List PendingAction) (a : PendingAction) : List PendingAction := mapSet m a

/-- removeAction of the agent: delete(pendingActions, id). -/
def removeAction (m : List PendingAction) (id : String) : List PendingAction :=
  m.filter (fun x => !(x.id == id))

/-- Inner pass of the double-loop sort of the snapshot (executePendingActions):
holding the current slot-i element, swap with every later element of larger
priority; the result is the final slot-i element together with the leftover
tail. -/
def sortPass (x : PendingAction) : List PendingAction → PendingAction × List PendingAction
  | [] => (x, [])
  | y :: ys =>
    if x.priority < y.priority then
      ((sortPass y ys).1, x :: (sortPass y ys).2)
    else
      ((sortPass x ys).1, y :: (sortPass x ys).2)

/-- Outer loop of the double-loop sort, structured on a fuel argument that
sortByPriority instantiates with the list length (the pass keeps the length
of the tail, so the fuel never runs out). -/
def sortGo : Nat → List PendingAction → List PendingAction
  | _, [] => []
  | 0, l => l
  | n + 1, x :: xs => (sortPass x xs).1 :: sortGo n (sortPass x xs).2

/-- Snapshot sort of executePendingActions: the nested loops move an element
of maximal priority into each slot in turn, ordering the snapshot by
descending numeric priority. -/
def sortByPriority (l : List PendingAction) : List PendingAction := sortGo l.length l

/-- Per-action body of executePendingActions: a successful execution removes
the action from the map; a failure increments retryCount and rewrites the
map entry while retryCount stays below 3, otherwise removes the action. The
outcome of the HTTP execution call is supplied by the exec oracle. -/
def execStep (exec : PendingAction → Bool) (acc : List PendingAction)
    (action : PendingAction) : List PendingAction :=
  if exec action then removeAction acc action.id
  else
    let retried := { action with retryCount := action.retryCount + 1 }
    if retried.retryCount < 3 then mapSet acc retried
    else removeAction acc action.id

/-- One 30-second cycle of executePendingActions: snapshot the map, sort the
snapshot by descending priority, then attempt each action in that order
against the live map. -/
def execPendingActions (exec : PendingAction → Bool) (m : List PendingAction) : List PendingAction :=
  (sortByPriority m).foldl (execStep exec) m

/-- Iterated execution cycles of the agent timer. -/
def execCycles (exec : PendingAction → Bool) (n : Nat) (m : List PendingAction) : List PendingAction :=
  Nat.iterate (execPendingActions exec) n m

/-- Fixture task used as a base record by concrete instances. -/
def sampleTask : Task :=
  { id := "t1", boardId := "b", columnId := "c0", position := 0, storyPoints := 1,
    createdAt := 0, completedAt := none }

/-- Fixture table: three tasks filling column c0 at positions 0, 1, 2 and one
task at position 0 of column c1. -/
def fixtureTasks : List Task :=
  [sampleTask,
   { sampleTask with id := "t2", position := 1 },
   { sampleTask with id := "t3", position := 2 },
   { sampleTask with id := "t4", columnId := "c1", position := 0 }]

/-- Fixture column c0 with two tasks at positions 0 and 1. -/
def pairTasks : List Task := fixtureTasks.take 2

/-- Fixture column c0 with three tasks at positions 0, 1 and 2. -/
def tripleTasks : List Task := fixtureTasks.take 3

/-- Fixture task completed on the Friday (day 5) before the Sunday day 7. -/
def fridayTask : Task :=
  { id := "t5", boardId := "b", columnId := "c0", position := 0, storyPoints := 5,
    createdAt := 0, completedAt := some 5 }

/-- Fixture event for the bus theorems. -/
def sampleEvent : Event :=
  { id := "e1", type := "task.created", boardId := "b", userId := "u",
    data := [("k", Json.num 3)], timestamp := 17 }

/-- Fixture pending action. -/
def sampleAction : PendingAction :=
  { id := "a1", type := "adjust_wip_limits", boardId := "b", priority := 2,
    data := [], createdAt := 0, retryCount := 0 }

/-- Fixture overload alert naming user u0. -/
def overloadAlert : RiskAlert :=
  { id := "al1", type := "overload", boardId := "b", level := "high", score := 9/10,
    data := [("userId", Json.str "u0")], timestamp := 0 }

/-- Fixture workload entry: an eligible reassignment target with one active
task. -/
def leastLoadedUser : WorkloadAnalysis :=
  { userId := "u1", name := "least", activeTasks := 1, totalStoryPoints := 2,
    avgCycleTime := 0, capacity := 1, isOverloaded := false }

/-- Fixture workload entry: the overloaded user u0 as it appears in its own
board snapshot. -/
def overloadedUser : WorkloadAnalysis :=
  { userId := "u0", name := "over", activeTasks := 9, totalStoryPoints := 30,
    avgCycleTime := 0, capacity := 0, isOverloaded := true }

/-- Fixture column with WIP limit 3 holding four tasks. -/
def sampleColumn : Column :=
  { id := "c1", boardId := "b", name := "In Progress", position := 2, wipLimit := 3,
    tasks := [sampleTask, sampleTask, sampleTask, sampleTask] }

/-- Fixture database state holding just the over-limit column. -/
def sampleState : DBState :=
  { tasks := [], columns := [sampleColumn], metrics := [], risks := [] }

/-- Fixture pending action as the overload handler queues it. -/
def overloadAction : PendingAction :=
  { id := "o1", type := "redistribute_tasks", boardId := "b", priority := 1,
    data := [], createdAt := 0, retryCount := 0 }

/-- Fixture pending action as the deadline handler queues it. -/
def deadlineAction : PendingAction :=
  { id := "d1", type := "reassign_overdue", boardId := "b", priority := 3,
    data := [], createdAt := 0, retryCount := 0 }

/-- Fixture bottleneck alert with well-typed payload fields. -/
def bottleneckAlertOk : RiskAlert :=
  { id := "al2", type := "bottleneck", boardId := "b", level := "high", score := 4/5,
    data := [("columnId", Json.str "c1"), ("wipLimit", Json.num 3)], timestamp := 0 }

/-- Fixture deadline alert with a well-typed taskId field. -/
def deadlineAlertOk : RiskAlert :=
  { id := "al3", type := "deadline_risk", boardId := "b", level := "medium", score := 1/2,
    data := [("taskId", Json.str "t1")], timestamp := 0 }

/-- Fixture WIP violation alert with a well-typed columnId field. -/
def wipAlertOk : RiskAlert :=
  { id := "al4", type := "wip_violation", boardId := "b", level := "high", score := 4/5,
    data := [("columnId", Json.str "c1")], timestamp := 0 }

/-- The inner pass keeps the length of its tail. -/
theorem sortPass_length (x : PendingAction) (l : List PendingAction) :
    (sortPass x l).2.length = l.length := by
  induction l generalizing x with
  | nil => rfl
  | cons y ys ih =>
    simp only [sortPass]
    split <;> simp [ih]

/-- The inner pass permutes its input: the selected element together with the
leftover tail rearranges the current element and the old tail. -/
theorem sortPass_perm (x : PendingAction) (l : List PendingAction) :
    List.Perm ((sortPass x l).1 :: (sortPass x l).2) (x :: l) := by
  induction l generalizing x with
  | nil => exact List.Perm.refl _
  | cons y ys ih =>
    simp only [sortPass]
    split
    · dsimp only
      exact List.Perm.trans (List.Perm.swap x (sortPass y ys).1 (sortPass y ys).2) ((ih y).cons x)
    · dsimp only
      exact List.Perm.trans (List.Perm.swap y (sortPass x ys).1 (sortPass x ys).2)
        (List.Perm.trans ((ih x).cons y) (List.Perm.swap x y ys))

/-- The inner pass selects an element of maximal priority: the current
element and everything left in the tail is bounded by it. -/
theorem sortPass_le (x : PendingAction) (l : List PendingAction) :
    x.priority ≤ (sortPass x l).1.priority
    ∧ ∀ z ∈ (sortPass x l).2, z.priority ≤ (sortPass x l).1.priority := by
  induction l generalizing x with
  | nil => exact ⟨le_refl _, by simp [sortPass]⟩
  | cons y ys ih =>
    simp only [sortPass]
    split
    · rename_i hlt
      dsimp only
      obtain ⟨h1, h2⟩ := ih y
      refine ⟨le_of_lt (lt_of_lt_of_le hlt h1), ?_⟩
      intro z hz
      rcases List.mem_cons.mp hz with rfl | hz
      · exact le_of_lt (lt_of_lt_of_le hlt h1)
      · exact h2 z hz
    · rename_i hge
      dsimp only
      obtain ⟨h1, h2⟩ := ih x
      refine ⟨h1, ?_⟩
      intro z hz
      rcases List.mem_cons.mp hz with rfl | hz
      · exact le_trans (le_of_not_lt hge) h1
      · exact h2 z hz

/-- With enough fuel, the outer loop permutes its input and orders it by
descending numeric priority. -/
theorem sortGo_perm_sorted (fuel : Nat) :
    ∀ l : List PendingAction, l.length ≤ fuel →
      List.Perm (sortGo fuel l) l
      ∧ List.Pairwise (fun a b => b.priority ≤ a.priority) (sortGo fuel l) := by
  induction fuel with
  | zero =>
    intro l hl
    have h0 : l = [] := List.eq_nil_of_length_eq_zero (Nat.le_zero.mp hl)
    subst h0
    exact ⟨List.Perm.refl _, List.Pairwise.nil⟩
  | succ fuel ih =>
    intro l hl
    match l with
    | [] => exact ⟨List.Perm.refl _, List.Pairwise.nil⟩
    | x :: xs =>
      simp only [sortGo]
      have hlen : (sortPass x xs).2.length ≤ fuel := by
        rw [sortPass_length]
        simpa using hl
      obtain ⟨ihp, ihs⟩ := ih (sortPass x xs).2 hlen
      constructor
      · exact List.Perm.trans (ihp.cons _) (sortPass_perm x xs)
      · refine List.Pairwise.cons ?_ ihs
        intro z hz
        exact (sortPass_le x xs).2 z (ihp.mem_iff.mp hz)

/-- The snapshot sort is a permutation of the snapshot. -/
theorem sortByPriority_perm (l : List PendingAction) :
    List.Perm (sortByPriority l) l :=
  (sortGo_perm_sorted l.length l le_rfl).1

/-- The snapshot sort orders the snapshot by descending numeric priority. -/
theorem sortByPriority_sorted (l : List PendingAction) :
    List.Pairwise (fun a b => b.priority ≤ a.priority) (sortByPriority l) :=
  (sortGo_perm_sorted l.length l le_rfl).2

/-- Cycle-time updates only touch the metrics table. -/
theorem updateCycleTimeMetrics_columns (boardId : String) (st : DBState) (now : Int) :
    (updateCycleTimeMetrics boardId st now).columns = st.columns := by
  simp only [updateCycleTimeMetrics]
  split <;> rfl

/-- Folding story points equals summing the mapped list. -/
theorem foldl_storyPoints (l : List Task) (a : Int) :
    l.foldl (fun acc t => acc + t.storyPoints) a = a + (l.map (fun t => t.storyPoints)).sum := by
  induction l generalizing a with
  | nil => simp
  | cons t l ih =>
    simp only [List.foldl_cons, List.map_cons, List.sum_cons, ih]
    ring

/-- C2: whenever bottleneck analysis runs after a task-moved event, every
column of the board with a positive WIP limit exceeded by its task count
yields a RiskPrediction of type bottleneck, level high and score 0.8 whose
data records overflowBy as taskCount minus wipLimit. -/
theorem C2_bottleneck_prediction (boardId : String) (st : DBState) (now : Int)
    (col : Column) (hmem : col ∈ st.columns) (hb : col.boardId = boardId)
    (hw : 0 < col.wipLimit) (hover : col.wipLimit < (col.tasks.length : Int)) :
    ∃ r ∈ (handleTaskMoved boardId st now).risks,
      r.type = "bottleneck" ∧ r.level = "high" ∧ r.score = 4/5 ∧
      r.data.lookup "overflowBy"
        = some (Json.num (((col.tasks.length : Int) - col.wipLimit : Int) : Rat)) := by
  refine ⟨bottleneckRisk boardId col, ?_, rfl, rfl, rfl, rfl⟩
  simp only [handleTaskMoved, updateCycleTimeMetrics_columns]
  apply List.mem_append_right
  apply List.mem_map_of_mem
  rw [List.mem_filter]
  refine ⟨List.mem_filter.mpr ⟨hmem, ?_⟩, ?_⟩
  · simp [hb]
  · simp [hw, hover]

/-- Witness for C2 at the scenario input: a board whose In Progress column
has WIP limit 3 and four active tasks produces a bottleneck prediction with
overflowBy equal to 1. -/
theorem C2_bottleneck_prediction_witness :
    ∃ r ∈ (handleTaskMoved "b" sampleState 0).risks,
      r.type = "bottleneck" ∧ r.level = "high" ∧ r.score = 4/5 ∧
      r.data.lookup "overflowBy" = some (Json.num (1 : Rat)) := by
  have h := C2_bottleneck_prediction "b" sampleState 0
    sampleColumn (by simp [sampleState]) rfl (by decide) (by decide)
  simpa [sampleColumn] using h

/-- C3: counterexample to the ISO-calendar-week window. On the Sunday day 7,
the week start used by the source is day 7 itself (now minus Weekday(now)),
so a task completed the preceding Friday (day 5, inside the current ISO
Monday-to-Sunday week) is excluded: the computed velocity is 0 while the
ISO-week formula of the claim gives 5/2. -/
theorem C3_iso_week_counterexample :
    (updateVelocityMetrics "b" [fridayTask] 7).velocity ≠ isoWeekVelocity "b" [fridayTask] 7 := by
  norm_num [updateVelocityMetrics, isoWeekVelocity, weekday, fridayTask]

/-- C3 amended: the velocity of a board equals the total story points of its
tasks completed at or after now minus Weekday(now) days - the Sunday-based
window of the source, not the ISO calendar week - divided by (count + 1); in
particular a board with no completions in the window has velocity 0 and the
denominator is never zero. -/
theorem C3_velocity_amended (boardId : String) (tasks : List Task) (now : Int) :
    (updateVelocityMetrics boardId tasks now).velocity = sundayWeekVelocity boardId tasks now
    ∧ ((updateVelocityMetrics boardId tasks now).completed = 0 →
        (updateVelocityMetrics boardId tasks now).velocity = 0)
    ∧ (0 : Rat) < ((updateVelocityMetrics boardId tasks now).completed : Rat) + 1 := by
  refine ⟨?_, ?_, ?_⟩
  · simp only [updateVelocityMetrics, sundayWeekVelocity]
    rw [foldl_storyPoints]
    simp
    rfl
  · intro h0
    simp only [updateVelocityMetrics] at h0 ⊢
    rw [List.length_eq_zero.mp h0]
    simp
  · have hnn : (0 : Rat) ≤ ((updateVelocityMetrics boardId tasks now).completed : Rat) :=
      Nat.cast_nonneg _
    linarith

/-- Witness for C3 at the scenario input: with no tasks at all, the window is
empty, the code velocity agrees with the Sunday-window formula and equals
0 = 0 / (0 + 1), with no division error. -/
theorem C3_velocity_amended_witness :
    (updateVelocityMetrics "b" [] 0).velocity = sundayWeekVelocity "b" [] 0
    ∧ (updateVelocityMetrics "b" [] 0).velocity = 0 := by
  have h := C3_velocity_amended "b" [] 0
  exact ⟨h.1, h.2.1 rfl⟩

/-- C8: publishing an event (json.Marshal of the envelope) and consuming it
from the same queue (json.Unmarshal of the body) yields the original event;
with the timestamp held at the precision of the model, deserialize after
serialize is the identity on the Event type. -/
theorem C8_publish_consume_roundtrip (e : Event) :
    decodeDelivery (some (publishEvent e)) = some e := rfl

/-- C9: there are well-formed risk alerts on which an agent alert handler
panics instead of returning an error: handleBottleneckAlert on an alert
whose data map lacks the columnId key, and handleDeadlineAlert on an alert
whose data map holds taskId at type float64 rather than string. -/
theorem C9_unchecked_assertions_panic :
    handleBottleneckAlert
      { id := "a1", type := "bottleneck", boardId := "b", level := "high",
        score := 4/5, data := [], timestamp := 0 } "n1" 0 = HandlerResult.panicked
    ∧ handleDeadlineAlert
      { id := "a2", type := "deadline_risk", boardId := "b", level := "high",
        score := 4/5, data := [("taskId", Json.num 3)], timestamp := 0 } "n2" 0
      = HandlerResult.panicked :=
  ⟨rfl, rfl⟩

/-- C5: evaluation of handleOverloadAlert at the failing input. The board
snapshot holds the eligible least-loaded user u1 (one active task) followed
by the overloaded user u0 itself; the claimed behaviour selects u1, but the
Go 1.21 loop-variable aliasing makes the queued action name u0 - the final
contents of the loop variable - as the reassignment target. The second
conjunct records that with no eligible target at all nothing is queued. -/
theorem C5_overload_target_is_last_element :
    handleOverloadAlert overloadAlert [leastLoadedUser, overloadedUser] "n1" 0
      = HandlerResult.ok (some
        { id := "n1", type := "redistribute_tasks", boardId := "b", priority := 1,
          createdAt := 0, retryCount := 0,
          data := [("fromUserId", Json.str "u0"), ("toUserId", Json.str "u0"),
            ("taskCount", Json.num 2), ("reason", Json.str "workload_balancing"),
            ("alertId", Json.str "al1")] })
    ∧ handleOverloadAlert overloadAlert [overloadedUser] "n1" 0 = HandlerResult.ok none :=
  ⟨rfl, rfl⟩

/-- C6: in the consume loop, a delivery that fails to deserialize is nacked
without requeue and the rest of the queue still gets processed; a delivery
whose handler errors is nacked with requeue; a handled delivery is acked;
and a delivery whose handler permanently errors remains in the queue after
any number of loop iterations. -/
theorem C6_consume_ack_semantics :
    (∀ (h : Event → Except String Unit) (d : Option Json),
        decodeDelivery d = none → consumeStep h d = Ack.nack false)
    ∧ (∀ (h : Event → Except String Unit) (d : Option Json) (e : Event) (msg : String),
        decodeDelivery d = some e → h e = Except.error msg → consumeStep h d = Ack.nack true)
    ∧ (∀ (h : Event → Except String Unit) (d : Option Json) (e : Event),
        decodeDelivery d = some e → h e = Except.ok () → consumeStep h d = Ack.ack)
    ∧ (∀ (h : Event → Except String Unit) (d : Option Json) (rest : List (Option Json)),
        decodeDelivery d = none → busStep h (d :: rest) = rest)
    ∧ (∀ (h : Event → Except String Unit) (d : Option Json) (e : Event) (msg : String),
        decodeDelivery d = some e → h e = Except.error msg →
        ∀ (n : Nat) (q : List (Option Json)), d ∈ q → d ∈ Nat.iterate (busStep h) n q) := by
  refine ⟨?_, ?_, ?_, ?_, ?_⟩
  · intro h d hd
    simp [consumeStep, hd]
  · intro h d e msg hd hh
    simp [consumeStep, hd, hh]
  · intro h d e hd hh
    simp [consumeStep, hd, hh]
  · intro h d rest hd
    simp [busStep, consumeStep, hd]
  · intro h d e msg hd hh
    have hstep : ∀ q : List (Option Json), d ∈ q → d ∈ busStep h q := by
      intro q hq
      match q with
      | [] => exact absurd hq (List.not_mem_nil d)
      | hd0 :: rest =>
        by_cases hed : hd0 = d
        · subst hed
          simp [busStep, consumeStep, hd, hh]
        · have hmem : d ∈ rest := by
            rcases List.mem_cons.mp hq with h1 | h1
            · exact absurd h1.symm hed
            · exact h1
          cases hc : consumeStep h hd0 with
          | ack => simpa [busStep, hc] using hmem
          | nack rq =>
            cases rq with
            | false => simpa [busStep, hc] using hmem
            | true =>
              simp only [busStep, hc]
              exact List.mem_append_left _ hmem
    intro n
    induction n with
    | zero => intro q hq; exact hq
    | succ n ih =>
      intro q hq
      rw [Function.iterate_succ_apply]
      exact ih _ (hstep q hq)

/-- Witness for C6 at concrete inputs: an undecodable body is nacked without
requeue, a decodable body with an erroring handler is nacked with requeue
and survives two loop iterations, a handled body is acked, and a malformed
head leaves the tail to be processed. -/
theorem C6_consume_ack_semantics_witness :
    consumeStep (fun _ => Except.error "down") none = Ack.nack false
    ∧ consumeStep (fun _ => Except.error "down") (some (publishEvent sampleEvent)) = Ack.nack true
    ∧ consumeStep (fun _ => Except.ok ()) (some (publishEvent sampleEvent)) = Ack.ack
    ∧ busStep (fun _ => Except.error "down") (none :: [some (publishEvent sampleEvent)])
      = [some (publishEvent sampleEvent)]
    ∧ some (publishEvent sampleEvent)
      ∈ Nat.iterate (busStep (fun _ => Except.error "down")) 2 [some (publishEvent sampleEvent)] := by
  obtain ⟨h1, h2, h3, h4, h5⟩ := C6_consume_ack_semantics
  exact ⟨h1 _ none rfl,
    h2 _ (some (publishEvent sampleEvent)) sampleEvent "down" rfl rfl,
    h3 (fun _ => Except.ok ()) (some (publishEvent sampleEvent)) sampleEvent rfl rfl,
    h4 _ none _ rfl,
    h5 _ (some (publishEvent sampleEvent)) sampleEvent "down" rfl rfl 2 _
      (List.mem_singleton.mpr rfl)⟩

/-- C10: processing board.created is idempotent with respect to column
creation: the initializer is idempotent, re-processing the event any number
of times equals processing it once, a board with no columns receives exactly
the default set, and the defaults are the five named columns. -/
theorem C10_board_created_idempotent :
    (∀ (boardId : String) (columns : List Column),
        initializeDefaultColumns boardId (initializeDefaultColumns boardId columns)
          = initializeDefaultColumns boardId columns)
    ∧ (∀ (boardId : String) (columns : List Column) (n : Nat),
        Nat.iterate (initializeDefaultColumns boardId) (n + 1) columns
          = initializeDefaultColumns boardId columns)
    ∧ (∀ (boardId : String) (columns : List Column),
        (columns.filter (fun c => c.boardId == boardId)).length = 0 →
        (initializeDefaultColumns boardId columns).filter (fun c => c.boardId == boardId)
          = defaultColumns boardId)
    ∧ (∀ boardId : String,
        (defaultColumns boardId).map (fun c => c.name)
          = ["Backlog", "To Do", "In Progress", "Review", "Done"]) := by
  have hfilter : ∀ boardId : String,
      (defaultColumns boardId).filter (fun c => c.boardId == boardId) = defaultColumns boardId := by
    intro boardId
    simp [defaultColumns]
  have hidem : ∀ (boardId : String) (columns : List Column),
      initializeDefaultColumns boardId (initializeDefaultColumns boardId columns)
        = initializeDefaultColumns boardId columns := by
    intro boardId columns
    by_cases h : 0 < (columns.filter (fun c => c.boardId == boardId)).length
    · simp [initializeDefaultColumns, h]
    · have h0 : columns.filter (fun c => c.boardId == boardId) = [] :=
        List.length_eq_zero.mp (Nat.eq_zero_of_not_pos h)
      simp [initializeDefaultColumns, h, h0, hfilter, defaultColumns]
  refine ⟨hidem, ?_, ?_, ?_⟩
  · intro boardId columns n
    induction n with
    | zero => rfl
    | succ n ih =>
      rw [Function.iterate_succ_apply', ih, hidem]
  · intro boardId columns h0
    have hnil : columns.filter (fun c => c.boardId == boardId) = [] :=
      List.length_eq_zero.mp h0
    simp [initializeDefaultColumns, hnil, hfilter]
  · intro boardId
    rfl

/-- Witness for C10 at concrete inputs: on an empty column table for board b,
one run creates the defaults, a second run changes nothing, and the board
ends with exactly the five default columns. -/
theorem C10_board_created_idempotent_witness :
    initializeDefaultColumns "b" (initializeDefaultColumns "b" [])
      = initializeDefaultColumns "b" []
    ∧ Nat.iterate (initializeDefaultColumns "b") 3 [] = initializeDefaultColumns "b" []
    ∧ (initializeDefaultColumns "b" []).filter (fun c => c.boardId == "b") = defaultColumns "b" := by
  obtain ⟨h1, h2, h3, _⟩ := C10_board_created_idempotent
  exact ⟨h1 "b" [], h2 "b" [] 2, h3 "b" [] rfl⟩

/-- C1: the retry budget of the pending-action queue. One execution cycle
keeps every queued entry below retryCount 3 whenever the input queue was
below it (fresh actions are queued at retryCount 0), and an action whose
execution always fails is retried with retryCount 1 and 2, removed by the
cycle that sees its third failure, and never attempted again: from the third
cycle on the queue stays empty. -/
theorem C1_retry_budget :
    (∀ (exec : PendingAction → Bool) (m : List PendingAction),
        (∀ x ∈ m, x.retryCount < 3) →
        ∀ y ∈ execPendingActions exec m, y.retryCount < 3)
    ∧ (∀ a : PendingAction, a.retryCount = 0 →
        execCycles (fun _ => false) 1 [a] = [{ a with retryCount := 1 }]
        ∧ execCycles (fun _ => false) 2 [a] = [{ a with retryCount := 2 }]
        ∧ execCycles (fun _ => false) 3 [a] = []
        ∧ ∀ n : Nat, execCycles (fun _ => false) (3 + n) [a] = []) := by
  have hstep : ∀ (exec : PendingAction → Bool) (acc : List PendingAction)
      (action : PendingAction), (∀ x ∈ acc, x.retryCount < 3) →
      ∀ y ∈ execStep exec acc action, y.retryCount < 3 := by
    intro exec acc action hacc y hy
    simp only [execStep] at hy
    split at hy
    · exact hacc y (List.mem_of_mem_filter hy)
    · split at hy
      · rename_i hlt
        simp only [mapSet] at hy
        split at hy
        · rcases List.mem_map.mp hy with ⟨x, hx, hxy⟩
          by_cases hid : (x.id == ({ action with retryCount := action.retryCount + 1 } :
              PendingAction).id) = true
          · rw [if_pos hid] at hxy
            rw [← hxy]
            exact hlt
          · rw [if_neg hid] at hxy
            rw [← hxy]
            exact hacc x hx
        · rcases List.mem_append.mp hy with h | h
          · exact hacc y h
          · rw [List.mem_singleton.mp h]
            exact hlt
      · exact hacc y (List.mem_of_mem_filter hy)
  have hfold : ∀ (exec : PendingAction → Bool) (l acc : List PendingAction),
      (∀ x ∈ acc, x.retryCount < 3) →
      ∀ y ∈ l.foldl (execStep exec) acc, y.retryCount < 3 := by
    intro exec l
    induction l with
    | nil => intro acc h; simpa using h
    | cons a l ih =>
      intro acc h
      simp only [List.foldl_cons]
      exact ih _ (hstep exec acc a h)
  refine ⟨?_, ?_⟩
  · intro exec m hm
    exact hfold exec (sortByPriority m) m hm
  · intro a ha
    have e1 : execPendingActions (fun _ => false) [a] = [{ a with retryCount := 1 }] := by
      show (sortByPriority [a]).foldl (execStep (fun _ => false)) [a] = _
      have hs : sortByPriority [a] = [a] := rfl
      rw [hs]
      simp [execStep, mapSet, ha]
    have e2 : execPendingActions (fun _ => false) [{ a with retryCount := 1 }]
        = [{ a with retryCount := 2 }] := by
      show (sortByPriority _).foldl (execStep (fun _ => false)) _ = _
      have hs : sortByPriority [{ a with retryCount := 1 }] = [{ a with retryCount := 1 }] := rfl
      rw [hs]
      simp [execStep, mapSet]
    have e3 : execPendingActions (fun _ => false) [{ a with retryCount := 2 }] = [] := by
      show (sortByPriority _).foldl (execStep (fun _ => false)) _ = _
      have hs : sortByPriority [{ a with retryCount := 2 }] = [{ a with retryCount := 2 }] := rfl
      rw [hs]
      simp [execStep, removeAction]
    have hnil : execPendingActions (fun _ => false) ([] : List PendingAction) = [] := rfl
    have c1 : execCycles (fun _ => false) 1 [a] = [{ a with retryCount := 1 }] := by
      simpa [execCycles] using e1
    have c2 : execCycles (fun _ => false) 2 [a] = [{ a with retryCount := 2 }] := by
      simp only [execCycles, Function.iterate_succ_apply, Function.iterate_zero_apply,
        Function.iterate_one]
      rw [e1, e2]
    have c3 : execCycles (fun _ => false) 3 [a] = [] := by
      simp only [execCycles, Function.iterate_succ_apply, Function.iterate_zero_apply]
      rw [e1, e2, e3]
    refine ⟨c1, c2, c3, ?_⟩
    intro n
    induction n with
    | zero => simpa using c3
    | succ n ih =>
      have hx : 3 + (n + 1) = (3 + n) + 1 := by omega
      rw [hx]
      simp only [execCycles, Function.iterate_succ_apply'] at ih ⊢
      rw [ih, hnil]

/-- Witness for C1 at a concrete queue: the invariant holds after one cycle
on the singleton queue of a fresh action, and a persistently failing fresh
action is gone after three cycles. -/
theorem C1_retry_budget_witness :
    (∀ y ∈ execPendingActions (fun _ => false) [sampleAction], y.retryCount < 3)
    ∧ execCycles (fun _ => false) 3 [sampleAction] = [] := by
  obtain ⟨h1, h2⟩ := C1_retry_budget
  refine ⟨h1 _ [sampleAction] ?_, (h2 sampleAction rfl).2.2.1⟩
  intro x hx
  rcases List.mem_singleton.mp hx with rfl
  decide

/-- C4: counterexample to the claimed execution order. The snapshot sort is
descending on the numeric priority value, so a queue holding a priority-1
workload-overload action and a priority-3 deadline action attempts the
deadline action first and the overload action last, not the other way
around. -/
theorem C4_priority_order_counterexample :
    sortByPriority [overloadAction, deadlineAction] = [deadlineAction, overloadAction]
    ∧ overloadAction.priority = 1 ∧ deadlineAction.priority = 3 :=
  ⟨rfl, rfl, rfl⟩

/-- C4 amended: alert-derived actions carry priority 1 for workload overload,
2 for bottleneck and WIP-violation actions and 3 for deadline reassignment,
and each cycle sorts its snapshot descending by the numeric priority value -
so under the stated 1-is-highest convention the deadline actions are
attempted first and the workload-overload actions last. -/
theorem C4_priority_order_amended :
    (∀ (alert : RiskAlert) (analysis : List WorkloadAnalysis) (newId : String) (now : Int)
        (act : PendingAction),
        handleOverloadAlert alert analysis newId now = HandlerResult.ok (some act) →
        act.priority = 1)
    ∧ (∀ (alert : RiskAlert) (newId : String) (now : Int) (act : PendingAction),
        handleBottleneckAlert alert newId now = HandlerResult.ok (some act) →
        act.priority = 2)
    ∧ (∀ (alert : RiskAlert) (newId : String) (now : Int) (act : PendingAction),
        handleWIPViolationAlert alert newId now = HandlerResult.ok (some act) →
        act.priority = 2)
    ∧ (∀ (alert : RiskAlert) (newId : String) (now : Int) (act : PendingAction),
        handleDeadlineAlert alert newId now = HandlerResult.ok (some act) →
        act.priority = 3)
    ∧ (∀ m : List PendingAction, List.Perm (sortByPriority m) m)
    ∧ (∀ m : List PendingAction,
        List.Pairwise (fun a b => b.priority ≤ a.priority) (sortByPriority m)) := by
  refine ⟨?_, ?_, ?_, ?_, sortByPriority_perm, sortByPriority_sorted⟩
  · intro alert analysis newId now act h
    unfold handleOverloadAlert at h
    split at h
    · exact HandlerResult.noConfusion h
    · dsimp only at h
      split at h
      · simp at h
      · injection h with h1
        injection h1 with h2
        subst h2
        rfl
  · intro alert newId now act h
    unfold handleBottleneckAlert at h
    split at h
    · exact HandlerResult.noConfusion h
    · split at h
      · exact HandlerResult.noConfusion h
      · injection h with h1
        injection h1 with h2
        subst h2
        rfl
  · intro alert newId now act h
    unfold handleWIPViolationAlert at h
    split at h
    · exact HandlerResult.noConfusion h
    · injection h with h1
      injection h1 with h2
      subst h2
      rfl
  · intro alert newId now act h
    unfold handleDeadlineAlert at h
    split at h
    · exact HandlerResult.noConfusion h
    · injection h with h1
      injection h1 with h2
      subst h2
      rfl

/-- Witness for C4 at concrete inputs: each handler hypothesis is satisfied
by a well-typed fixture alert and yields the stated priority, and the sort
conjuncts apply to the two-action queue. -/
theorem C4_priority_order_amended_witness :
    (∃ act : PendingAction, handleOverloadAlert overloadAlert [leastLoadedUser] "n1" 0
        = HandlerResult.ok (some act) ∧ act.priority = 1)
    ∧ (∃ act : PendingAction, handleBottleneckAlert bottleneckAlertOk "n2" 0
        = HandlerResult.ok (some act) ∧ act.priority = 2)
    ∧ (∃ act : PendingAction, handleWIPViolationAlert wipAlertOk "n3" 0
        = HandlerResult.ok (some act) ∧ act.priority = 2)
    ∧ (∃ act : PendingAction, handleDeadlineAlert deadlineAlertOk "n4" 0
        = HandlerResult.ok (some act) ∧ act.priority = 3)
    ∧ List.Perm (sortByPriority [overloadAction, deadlineAction])
        [overloadAction, deadlineAction]
    ∧ List.Pairwise (fun a b => b.priority ≤ a.priority)
        (sortByPriority [overloadAction, deadlineAction]) := by
  obtain ⟨h1, h2, h3, h4, h5, h6⟩ := C4_priority_order_amended
  exact ⟨⟨_, rfl, h1 overloadAlert [leastLoadedUser] "n1" 0 _ rfl⟩,
    ⟨_, rfl, h2 bottleneckAlertOk "n2" 0 _ rfl⟩,
    ⟨_, rfl, h3 wipAlertOk "n3" 0 _ rfl⟩,
    ⟨_, rfl, h4 deadlineAlertOk "n4" 0 _ rfl⟩,
    h5 _, h6 _⟩

/-- Column positions split over table concatenation. -/
theorem colPositions_append (l₁ l₂ : List Task) (c : String) :
    colPositions (l₁ ++ l₂) c = colPositions l₁ c ++ colPositions l₂ c := by
  simp [colPositions]

/-- Column positions respect table permutation. -/
theorem colPositions_perm {l₁ l₂ : List Task} (c : String) (h : List.Perm l₁ l₂) :
    List.Perm (colPositions l₁ c) (colPositions l₂ c) :=
  (h.filter _).map _

/-- Unfolding the integer range one step at the top. -/
theorem rangeInt_succ (n : Nat) : rangeInt (n + 1) = rangeInt n ++ [(n : Int)] := by
  simp [rangeInt, List.range_succ]

/-- Membership in the integer range. -/
theorem mem_rangeInt {x : Int} {n : Nat} : x ∈ rangeInt n ↔ 0 ≤ x ∧ x < (n : Int) := by
  have hmm := List.mem_map (f := fun k : Nat => (k : Int)) (l := List.range n) (b := x)
  unfold rangeInt
  rw [hmm]
  constructor
  · rintro ⟨k, hk, hkx⟩
    rw [List.mem_range] at hk
    omega
  · intro h
    exact ⟨x.toNat, List.mem_range.mpr (by omega), by omega⟩

/-- Length of the integer range. -/
theorem rangeInt_length (n : Nat) : (rangeInt n).length = n := by
  unfold rangeInt
  rw [List.length_map, List.length_range]

/-- The running maximum of the integer range, seeded at -1. -/
theorem foldl_max_rangeInt (n : Nat) : (rangeInt n).foldl max (-1) = (n : Int) - 1 := by
  induction n with
  | zero => simp [rangeInt]
  | succ n ih =>
    rw [rangeInt_succ, List.foldl_append, ih]
    have hm : max ((n : Int) - 1) (n : Int) = (n : Int) := max_eq_right (by omega)
    simp only [List.foldl_cons, List.foldl_nil, hm]
    push_cast
    ring

/-- On a contiguous column the maximum position is the count minus one. -/
theorem maxPosition_of_contiguous {db : List Task} {c : String} (h : contiguous db c) :
    maxPosition db c = ((colPositions db c).length : Int) - 1 := by
  unfold maxPosition
  rw [List.Perm.foldl_eq' h
    (fun x _ y _ z => by rw [max_assoc, max_comm x y, ← max_assoc]) (-1)]
  exact foldl_max_rangeInt _

/-- Inserting a task preserves contiguity of its column: the new task lands
at one past the maximum position, extending 0..n-1 to 0..n. -/
theorem createTask_contiguous (db : List Task) (t : Task) (h : contiguous db t.columnId) :
    contiguous (createTask db t) t.columnId := by
  have hmax : maxPosition db t.columnId = ((colPositions db t.columnId).length : Int) - 1 :=
    maxPosition_of_contiguous h
  have hmax1 : maxPosition db t.columnId + 1 = ((colPositions db t.columnId).length : Int) := by
    omega
  have hcol : colPositions (createTask db t) t.columnId
      = colPositions db t.columnId ++ [((colPositions db t.columnId).length : Int)] := by
    unfold createTask
    rw [colPositions_append]
    simp [colPositions, hmax1]
  have hperm : List.Perm (colPositions (createTask db t) t.columnId)
      (rangeInt ((colPositions db t.columnId).length + 1)) := by
    rw [hcol, rangeInt_succ]
    exact h.append_right _
  have hlen : (colPositions (createTask db t) t.columnId).length
      = (colPositions db t.columnId).length + 1 := by
    rw [hcol]
    simp
  unfold contiguous
  rw [hlen]
  exact hperm

/-- Permutation shape of the range after making room at slot j: the range of
size m+1 rearranges into j followed by the range of size m with every value
at or above j shifted up one. -/
theorem rangeInt_cons_shift (m j : Nat) (hj : j ≤ m) :
    List.Perm (rangeInt (m + 1))
      ((j : Int) :: (rangeInt m).map (fun x => if (j : Int) ≤ x then x + 1 else x)) := by
  induction m with
  | zero =>
    have h0 : j = 0 := Nat.le_zero.mp hj
    subst h0
    exact List.Perm.refl _
  | succ m ih =>
    by_cases hjm : j = m + 1
    · subst hjm
      have hmap : (rangeInt (m + 1)).map
          (fun x => if (((m + 1 : Nat) : Int)) ≤ x then x + 1 else x) = rangeInt (m + 1) := by
        have hpt : ∀ x ∈ rangeInt (m + 1),
            (if (((m + 1 : Nat) : Int)) ≤ x then x + 1 else x) = x := by
          intro x hx
          have hb := mem_rangeInt.mp hx
          rw [if_neg (by omega)]
        calc (rangeInt (m + 1)).map (fun x => if (((m + 1 : Nat) : Int)) ≤ x then x + 1 else x)
            = (rangeInt (m + 1)).map id := List.map_congr_left hpt
          _ = rangeInt (m + 1) := List.map_id _
      rw [hmap, rangeInt_succ]
      exact List.perm_append_singleton _ _
    · have hj2 : j ≤ m := by omega
      have hle : ((j : Int)) ≤ (m : Int) := by exact_mod_cast hj2
      have hrhs : (rangeInt (m + 1)).map (fun x => if (j : Int) ≤ x then x + 1 else x)
          = (rangeInt m).map (fun x => if (j : Int) ≤ x then x + 1 else x)
            ++ [((m : Int)) + 1] := by
        rw [rangeInt_succ m, List.map_append]
        simp [hle]
      rw [hrhs, rangeInt_succ (m + 1)]
      have hcast : ((m + 1 : Nat) : Int) = (m : Int) + 1 := by push_cast; ring
      rw [hcast]
      exact (ih hj2).append_right [((m : Int)) + 1]

/-- Shifting down past p undoes shifting up from p. -/
theorem dec_inc_id (p x : Int) :
    (if p < (if p ≤ x then x + 1 else x) then (if p ≤ x then x + 1 else x) - 1
      else (if p ≤ x then x + 1 else x)) = x := by
  by_cases h : p ≤ x
  · rw [if_pos h, if_pos (by omega)]
    ring
  · rw [if_neg h, if_neg (by omega)]

/-- Composing the up-shift at p with the down-shift past p is the identity on
position lists. -/
theorem map_dec_inc (p : Int) (l : List Int) :
    ((l.map fun x => if p ≤ x then x + 1 else x).map fun x => if p < x then x - 1 else x) = l := by
  rw [List.map_map]
  have hcomp : ((fun x => if p < x then x - 1 else x) ∘ fun x => if p ≤ x then x + 1 else x)
      = id := by
    funext x
    exact dec_inc_id p x
  rw [hcomp, List.map_id]

/-- Column positions of a pointwise-updated table: when the update keeps
every row in its column and acts as g on the positions of column c, the
positions of column c are mapped by g. -/
theorem colPositions_map_eq (c : String) (f : Task → Task) (g : Int → Int) :
    ∀ l : List Task, (∀ t ∈ l, (f t).columnId = t.columnId) →
      (∀ t ∈ l, t.columnId = c → (f t).position = g t.position) →
      colPositions (l.map f) c = (colPositions l c).map g := by
  intro l
  induction l with
  | nil => intro _ _; rfl
  | cons t l ih =>
    intro hcol hpos
    have hct := hcol t (List.mem_cons_self t l)
    have htail := ih (fun u hu => hcol u (List.mem_cons_of_mem t hu))
      (fun u hu hc => hpos u (List.mem_cons_of_mem t hu) hc)
    by_cases hc : t.columnId = c
    · have e1 : ((f t).columnId == c) = true := by simp [hct, hc]
      have e2 : (t.columnId == c) = true := by simp [hc]
      have hcons1 : colPositions ((t :: l).map f) c
          = (f t).position :: colPositions (l.map f) c := by
        simp [colPositions, List.filter_cons, e1]
      have hcons2 : colPositions (t :: l) c = t.position :: colPositions l c := by
        simp [colPositions, List.filter_cons, e2]
      rw [hcons1, hcons2, List.map_cons, htail, hpos t (List.mem_cons_self t l) hc]
    · have e1 : ((f t).columnId == c) = false := by simp [hct, hc]
      have e2 : (t.columnId == c) = false := by simp [hc]
      have hcons1 : colPositions ((t :: l).map f) c = colPositions (l.map f) c := by
        simp [colPositions, List.filter_cons, e1]
      have hcons2 : colPositions (t :: l) c = colPositions l c := by
        simp [colPositions, List.filter_cons, e2]
      rw [hcons1, hcons2, htail]

/-- Rows other than the erased one carry different ids when ids are unique. -/
theorem id_ne_of_mem_erase {db : List Task} {tk : Task}
    (hnodup : (db.map Task.id).Nodup) (htk : tk ∈ db) :
    ∀ t ∈ db.erase tk, t.id ≠ tk.id := by
  have hperm : List.Perm db (tk :: db.erase tk) := List.perm_cons_erase htk
  have h2 : ((tk :: db.erase tk).map Task.id).Nodup := (hperm.map Task.id).nodup hnodup
  simp only [List.map_cons, List.nodup_cons] at h2
  intro t ht heq
  exact h2.1 (heq ▸ List.mem_map_of_mem Task.id ht)

/-- The old-column shift never changes the column or the id of a row. -/
theorem shiftOldColumn_columnId (a : String) (b : Int) (t : Task) :
    (shiftOldColumn a b t).columnId = t.columnId := by
  unfold shiftOldColumn
  split <;> rfl

theorem shiftOldColumn_id (a : String) (b : Int) (t : Task) :
    (shiftOldColumn a b t).id = t.id := by
  unfold shiftOldColumn
  split <;> rfl

/-- The new-column shift never changes the column or the id of a row. -/
theorem shiftNewColumn_columnId (a : String) (b : Int) (t : Task) :
    (shiftNewColumn a b t).columnId = t.columnId := by
  unfold shiftNewColumn
  split <;> rfl

theorem shiftNewColumn_id (a : String) (b : Int) (t : Task) :
    (shiftNewColumn a b t).id = t.id := by
  unfold shiftNewColumn
  split <;> rfl

/-- The old-column shift on a row of that column conditionally decrements. -/
theorem shiftOld_eq_of_col {a : String} {b : Int} {t : Task} (h : t.columnId = a) :
    shiftOldColumn a b t
      = { t with position := if b < t.position then t.position - 1 else t.position } := by
  unfold shiftOldColumn
  have hc : (t.columnId == a) = true := by simp [h]
  by_cases hb : b < t.position
  · simp [hc, hb]
  · simp [hc, hb]

/-- The old-column shift leaves rows of other columns alone. -/
theorem shiftOld_eq_of_ne {a : String} {b : Int} {t : Task} (h : t.columnId ≠ a) :
    shiftOldColumn a b t = t := by
  unfold shiftOldColumn
  simp [beq_eq_false_iff_ne.mpr h]

/-- The new-column shift on a row of that column conditionally increments. -/
theorem shiftNew_eq_of_col {a : String} {b : Int} {t : Task} (h : t.columnId = a) :
    shiftNewColumn a b t
      = { t with position := if b ≤ t.position then t.position + 1 else t.position } := by
  unfold shiftNewColumn
  have hc : (t.columnId == a) = true := by simp [h]
  by_cases hb : b ≤ t.position
  · simp [hc, hb]
  · simp [hc, hb]

/-- The new-column shift leaves rows of other columns alone. -/
theorem shiftNew_eq_of_ne {a : String} {b : Int} {t : Task} (h : t.columnId ≠ a) :
    shiftNewColumn a b t = t := by
  unfold shiftNewColumn
  simp [beq_eq_false_iff_ne.mpr h]

/-- The final save leaves rows with a different id alone. -/
theorem placeTask_of_ne {tid nc : String} {np : Int} {t : Task}
    (h : (t.id == tid) = false) : placeTask tid nc np t = t := by
  unfold placeTask
  simp [h]

/-- C7: counterexample to the claimed contiguity maintenance. Deleting the
task at position 0 of a two-task column shifts no neighbours and leaves the
positions at 1 only, and moving the position-0 task of a three-task column
to position 2 of the same column skips the old-column shift and leaves the
positions at 1, 2, 3: in both cases the dense 0..count-1 invariant is
broken. -/
theorem C7_contiguity_counterexample :
    contiguous pairTasks "c0"
    ∧ ¬ contiguous (deleteTask pairTasks "t1") "c0"
    ∧ contiguous tripleTasks "c0"
    ∧ ¬ contiguous (moveTask tripleTasks "t1" "c0" 2) "c0" :=
  ⟨by decide, by decide, by decide, by decide⟩

/-- C7 amended: task insertion preserves the dense position invariant of its
column, and a cross-column move - whose shift-then-place updates the model
runs atomically, as the source runs them inside one database transaction -
preserves it in both the old and the new column whenever the target position
is within 0..count of the destination; deletion and same-column moves shift
no neighbours and can leave gaps. -/
theorem C7_contiguity_amended :
    (∀ (db : List Task) (t : Task), contiguous db t.columnId →
        contiguous (createTask db t) t.columnId)
    ∧ (∀ (db : List Task) (tid newCol : String) (newPos : Int) (tk : Task),
        db.find? (fun t => t.id == tid) = some tk →
        (db.map Task.id).Nodup →
        tk.columnId ≠ newCol →
        contiguous db tk.columnId →
        contiguous db newCol →
        0 ≤ newPos →
        newPos ≤ ((colPositions db newCol).length : Int) →
        contiguous (moveTask db tid newCol newPos) tk.columnId
        ∧ contiguous (moveTask db tid newCol newPos) newCol) := by
  constructor
  · exact createTask_contiguous
  · intro db tid newCol newPos tk hfind hnodup hcdiff hcold hcnew hpos0 hposle
    have htk : tk ∈ db := List.mem_of_find?_eq_some hfind
    have hidtk : tk.id = tid := by
      have hb := List.find?_some hfind
      simpa using hb
    have hbeq_new : (tk.columnId == newCol) = false := beq_eq_false_iff_ne.mpr hcdiff
    have hmove : moveTask db tid newCol newPos
        = db.map (fun t => placeTask tid newCol newPos
            (shiftNewColumn newCol newPos (shiftOldColumn tk.columnId tk.position t))) := by
      simp only [moveTask, hfind]
      rw [if_pos hcdiff]
      simp only [List.map_map]
      rfl
    have hdbperm : List.Perm db (tk :: db.erase tk) := List.perm_cons_erase htk
    have hrest_id : ∀ t ∈ db.erase tk, t.id ≠ tk.id := id_ne_of_mem_erase hnodup htk
    have hphi_tk : placeTask tid newCol newPos
        (shiftNewColumn newCol newPos (shiftOldColumn tk.columnId tk.position tk))
        = { tk with columnId := newCol, position := newPos } := by
      have h1 : shiftOldColumn tk.columnId tk.position tk = tk := by
        rw [shiftOld_eq_of_col rfl]
        simp
      rw [h1, shiftNew_eq_of_ne hcdiff]
      unfold placeTask
      have hb : (tk.id == tid) = true := by simp [hidtk]
      simp [hb]
    have hphi_rest : ∀ t ∈ db.erase tk,
        placeTask tid newCol newPos
          (shiftNewColumn newCol newPos (shiftOldColumn tk.columnId tk.position t))
        = shiftNewColumn newCol newPos (shiftOldColumn tk.columnId tk.position t) := by
      intro t ht
      apply placeTask_of_ne
      rw [shiftNewColumn_id, shiftOldColumn_id]
      exact beq_eq_false_iff_ne.mpr (fun he => hrest_id t ht (by rw [he, hidtk]))
    -- positions of the erased table, old column
    have hold_eq : colPositions ((db.erase tk).map (fun t => placeTask tid newCol newPos
          (shiftNewColumn newCol newPos (shiftOldColumn tk.columnId tk.position t))))
          tk.columnId
        = (colPositions (db.erase tk) tk.columnId).map
            (fun x => if tk.position < x then x - 1 else x) := by
      apply colPositions_map_eq
      · intro t ht
        rw [hphi_rest t ht, shiftNewColumn_columnId, shiftOldColumn_columnId]
      · intro t ht hc
        rw [hphi_rest t ht, shiftOld_eq_of_col hc, shiftNew_eq_of_ne (by simpa [hc] using hcdiff)]
    -- positions of the erased table, new column
    have hnew_eq : colPositions ((db.erase tk).map (fun t => placeTask tid newCol newPos
          (shiftNewColumn newCol newPos (shiftOldColumn tk.columnId tk.position t))))
          newCol
        = (colPositions (db.erase tk) newCol).map
            (fun x => if newPos ≤ x then x + 1 else x) := by
      apply colPositions_map_eq
      · intro t ht
        rw [hphi_rest t ht, shiftNewColumn_columnId, shiftOldColumn_columnId]
      · intro t ht hc
        have hne : t.columnId ≠ tk.columnId := by
          rw [hc]
          exact fun he => hcdiff he.symm
        rw [hphi_rest t ht, shiftOld_eq_of_ne hne, shiftNew_eq_of_col hc]
    -- the moved table is a permutation of phi over tk :: erase
    have hmoveperm : ∀ c : String,
        List.Perm (colPositions (moveTask db tid newCol newPos) c)
          (colPositions ((tk :: db.erase tk).map (fun t => placeTask tid newCol newPos
            (shiftNewColumn newCol newPos (shiftOldColumn tk.columnId tk.position t)))) c) := by
      intro c
      rw [hmove]
      exact colPositions_perm c (hdbperm.map _)
    constructor
    · -- the old column stays contiguous
      have hskip : colPositions ((tk :: db.erase tk).map (fun t => placeTask tid newCol newPos
            (shiftNewColumn newCol newPos (shiftOldColumn tk.columnId tk.position t))))
            tk.columnId
          = colPositions ((db.erase tk).map (fun t => placeTask tid newCol newPos
            (shiftNewColumn newCol newPos (shiftOldColumn tk.columnId tk.position t))))
            tk.columnId := by
        have hhead : (({ tk with columnId := newCol, position := newPos } : Task).columnId
            == tk.columnId) = false := by
          simpa using beq_eq_false_iff_ne.mpr (fun he => hcdiff he.symm)
        simp only [List.map_cons, colPositions, List.filter_cons, hphi_tk, hhead]
        simp
      have hsplit : colPositions (tk :: db.erase tk) tk.columnId
          = tk.position :: colPositions (db.erase tk) tk.columnId := by
        simp [colPositions, List.filter_cons]
      have hps : List.Perm (tk.position :: colPositions (db.erase tk) tk.columnId)
          (rangeInt (colPositions db tk.columnId).length) := by
        rw [← hsplit]
        exact ((colPositions_perm tk.columnId hdbperm).symm.trans hcold)
      have hpmem : tk.position ∈ rangeInt (colPositions db tk.columnId).length :=
        hps.subset (List.mem_cons_self _ _)
      obtain ⟨hp0, hpn⟩ := mem_rangeInt.mp hpmem
      have hn1 : 1 ≤ (colPositions db tk.columnId).length := by
        by_contra hcon
        have : (colPositions db tk.columnId).length = 0 := by omega
        rw [this] at hpn
        omega
      obtain ⟨j, hj⟩ : ∃ j : Nat, tk.position = (j : Int) :=
        ⟨tk.position.toNat, (Int.toNat_of_nonneg hp0).symm⟩
      have hjlt : j < (colPositions db tk.columnId).length := by omega
      have hjle : j ≤ (colPositions db tk.columnId).length - 1 := by omega
      have hL5 := rangeInt_cons_shift ((colPositions db tk.columnId).length - 1) j hjle
      have hpred : (colPositions db tk.columnId).length - 1 + 1
          = (colPositions db tk.columnId).length := by omega
      rw [hpred, ← hj] at hL5
      have herased : List.Perm (colPositions (db.erase tk) tk.columnId)
          ((rangeInt ((colPositions db tk.columnId).length - 1)).map
            (fun x => if tk.position ≤ x then x + 1 else x)) :=
        (hps.trans hL5).cons_inv
      have hfinal : List.Perm (colPositions (moveTask db tid newCol newPos) tk.columnId)
          (rangeInt ((colPositions db tk.columnId).length - 1)) := by
        refine ((hmoveperm tk.columnId).trans ?_)
        rw [hskip, hold_eq]
        have hmapped := herased.map (fun x => if tk.position < x then x - 1 else x)
        refine hmapped.trans ?_
        rw [map_dec_inc]
      unfold contiguous
      have hlen : (colPositions (moveTask db tid newCol newPos) tk.columnId).length
          = (colPositions db tk.columnId).length - 1 := by
        have hl := hfinal.length_eq
        rwa [rangeInt_length] at hl
      rw [hlen]
      exact hfinal
    · -- the new column becomes contiguous with one more entry
      have hhead2 : (({ tk with columnId := newCol, position := newPos } : Task).columnId
          == newCol) = true := by
        simp
      have hcons : colPositions ((tk :: db.erase tk).map (fun t => placeTask tid newCol newPos
            (shiftNewColumn newCol newPos (shiftOldColumn tk.columnId tk.position t))))
            newCol
          = newPos :: colPositions ((db.erase tk).map (fun t => placeTask tid newCol newPos
            (shiftNewColumn newCol newPos (shiftOldColumn tk.columnId tk.position t))))
            newCol := by
        simp only [List.map_cons, colPositions, List.filter_cons, hphi_tk, hhead2]
        simp
      have hskip2 : colPositions (tk :: db.erase tk) newCol
          = colPositions (db.erase tk) newCol := by
        simp [colPositions, List.filter_cons, hbeq_new]
      have hYperm : List.Perm (colPositions (db.erase tk) newCol)
          (rangeInt (colPositions db newCol).length) := by
        rw [← hskip2]
        exact (colPositions_perm newCol hdbperm).symm.trans hcnew
      obtain ⟨j2, hj2⟩ : ∃ j2 : Nat, newPos = (j2 : Int) :=
        ⟨newPos.toNat, (Int.toNat_of_nonneg hpos0).symm⟩
      have hj2le : j2 ≤ (colPositions db newCol).length := by omega
      have hL5b := rangeInt_cons_shift (colPositions db newCol).length j2 hj2le
      have hfinal2 : List.Perm (colPositions (moveTask db tid newCol newPos) newCol)
          (rangeInt ((colPositions db newCol).length + 1)) := by
        refine (hmoveperm newCol).trans ?_
        rw [hcons, hnew_eq]
        have hmapped := hYperm.map (fun x => if newPos ≤ x then x + 1 else x)
        refine List.Perm.trans (hmapped.cons newPos) ?_
        rw [hj2]
        exact hL5b.symm
      unfold contiguous
      have hlen2 : (colPositions (moveTask db tid newCol newPos) newCol).length
          = (colPositions db newCol).length + 1 := by
        have hl := hfinal2.length_eq
        rwa [rangeInt_length] at hl
      rw [hlen2]
      exact hfinal2

/-- Witness for C7 at concrete tables: inserting into the two-task column
keeps it dense, and moving t2 from column c0 to position 0 of column c1
keeps both columns dense. -/
theorem C7_contiguity_amended_witness :
    contiguous (createTask pairTasks { sampleTask with id := "t9" }) "c0"
    ∧ contiguous (moveTask fixtureTasks "t2" "c1" 0) "c0"
    ∧ contiguous (moveTask fixtureTasks "t2" "c1" 0) "c1" := by
  obtain ⟨h1, h2⟩ := C7_contiguity_amended
  have hmove := h2 fixtureTasks "t2" "c1" 0 { sampleTask with id := "t2", position := 1 }
    (by decide) (by decide) (by decide) (by decide) (by decide) (by decide) (by decide)
  exact ⟨h1 pairTasks _ (by decide), hmove.1, hmove.2⟩

end KanOpt
